import Mathlib

/-!
# Caffe2 intro tutorial (`src/intro.cpp`): shallow embedding and checked properties

The program is one procedure, `caffe2::run()`.  It feeds three blobs into a fresh
workspace, builds two operator graphs (`initModel`, `predictModel`), appends the
gradient operators obtained from the framework's gradient registry, and then
executes the graphs in a fixed loop.

The embedding follows the source block by block:

* protobuf messages (`Argument`, `OperatorDef`, `NetDef`) are structures and the
  generated setters (`set_type`, `add_input`, ...) are functions on them;
* the workspace is a finite map from blob names to blobs, a blob holds at most one
  CPU tensor, a tensor is a shape plus typed row-major storage;
* `rand()`, the float conversion, freshly allocated memory, the gradient registry and
  the net executor belong to the C library or to the framework; they are fields of
  an environment `Env` and every theorem quantifies over them;
* the two arguments `mutable_data<T>()` and `nbytes()` of each `memcpy` call may be
  evaluated in either order; the order is a field of `Env` as well;
* the driver is a state machine whose state carries the workspace, the number of
  `rand()` calls made so far, the trace of driver actions and a sticky error.
-/

namespace caffe2

/-! ## Protobuf messages -/

/-- Modelled from the spec: the protobuf message `Argument` is declared by the framework.
An operator carries "a mapping of named arguments (e.g., `shape`, `value`) to scalar or
list values"; the fields the program sets are `name`, the float `f` and the repeated
`ints`. The float is kept as a rational, the program only stores the constant 1.0. -/
structure Argument where
  name : String := ""
  f : Option Rat := none
  ints : List Int := []
deriving DecidableEq

/-- Modelled from the spec: the protobuf message `OperatorDef` is declared by the
framework. It is "a named operator type, an ordered list of input blob names, an
ordered list of output blob names, and a mapping of named arguments", plus the flag
written by `set_is_gradient_op`. -/
structure OperatorDef where
  type : String := ""
  input : List String := []
  output : List String := []
  arg : List Argument := []
  is_gradient_op : Bool := false
deriving DecidableEq

/-- Modelled from the spec: the protobuf message `NetDef` is declared by the framework.
It is "an ordered sequence of operator definitions plus a name". -/
structure NetDef where
  name : String := ""
  op : List OperatorDef := []
deriving DecidableEq

/-- The framework struct `GradientWrapper`: names of the dense gradient blob and of
the two blobs of a sparse gradient. A default-constructed one has all three empty. -/
structure GradientWrapper where
  dense_ : String := ""
  indices_ : String := ""
  values_ : String := ""
deriving DecidableEq

/-- The framework struct `GradientOpsMeta`: the backward operators and the gradient
wrappers of the inputs. -/
structure GradientOpsMeta where
  ops_ : List OperatorDef := []
  g_input_ : List GradientWrapper := []
deriving DecidableEq

def Argument.set_name (a : Argument) (n : String) : Argument := { a with name := n }

def Argument.add_ints (a : Argument) (v : Int) : Argument := { a with ints := a.ints ++ [v] }

def Argument.set_f (a : Argument) (v : Rat) : Argument := { a with f := some v }

def OperatorDef.set_type (o : OperatorDef) (t : String) : OperatorDef := { o with type := t }

def OperatorDef.add_input (o : OperatorDef) (n : String) : OperatorDef :=
  { o with input := o.input ++ [n] }

def OperatorDef.add_output (o : OperatorDef) (n : String) : OperatorDef :=
  { o with output := o.output ++ [n] }

def OperatorDef.add_arg (o : OperatorDef) (a : Argument) : OperatorDef :=
  { o with arg := o.arg ++ [a] }

def OperatorDef.set_is_gradient_op (o : OperatorDef) (b : Bool) : OperatorDef :=
  { o with is_gradient_op := b }

/-- The call `op->output_size()`. -/
def OperatorDef.output_size (o : OperatorDef) : Nat := o.output.length

/-- The call `op->output(i)`. -/
def OperatorDef.outputAt (o : OperatorDef) (i : Nat) : String := o.output.getD i ""

def NetDef.set_name (n : NetDef) (s : String) : NetDef := { n with name := s }

/-- The call `net.add_op()` followed by the mutations made through the returned
pointer: the finished operator becomes the last element of `op`. -/
def NetDef.add_op (n : NetDef) (o : OperatorDef) : NetDef := { n with op := n.op ++ [o] }

/-! ## Graph construction (lines 67-137) -/

/-- Lines 73-82: `XavierFill([], 'fc_w', shape=[10, 100])`. -/
def xavierFillOp : OperatorDef :=
  let op : OperatorDef := {}
  let op := op.set_type "XavierFill"
  let arg : Argument := {}
  let arg := arg.set_name "shape"
  let arg := arg.add_ints 10
  let arg := arg.add_ints 100
  let op := op.add_arg arg
  op.add_output "fc_w"

/-- Lines 84-92: `ConstantFill([], 'fc_b', shape=[10, ])`. -/
def constantFillOp : OperatorDef :=
  let op : OperatorDef := {}
  let op := op.set_type "ConstantFill"
  let arg : Argument := {}
  let arg := arg.set_name "shape"
  let arg := arg.add_ints 10
  let op := op.add_arg arg
  op.add_output "fc_b"

/-- Lines 68-69 and 73-92: the initialization graph. -/
def initModel : NetDef :=
  let initModel : NetDef := {}
  let initModel := initModel.set_name "my first net_init"
  let initModel := initModel.add_op xavierFillOp
  initModel.add_op constantFillOp

/-- Lines 96-105: `FC(["data", "fc_w", "fc_b"], "fc1")`. -/
def fcOp : OperatorDef :=
  let op : OperatorDef := {}
  let op := op.set_type "FC"
  let op := op.add_input "data"
  let op := op.add_input "fc_w"
  let op := op.add_input "fc_b"
  op.add_output "fc1"

/-- Lines 107-114: `Sigmoid(fc_1, "pred")`. -/
def sigmoidOp : OperatorDef :=
  let op : OperatorDef := {}
  let op := op.set_type "Sigmoid"
  let op := op.add_input "fc1"
  op.add_output "pred"

/-- Lines 116-125: `SoftmaxWithLoss([pred, "label"], ["softmax", "loss"])`. -/
def softmaxWithLossOp : OperatorDef :=
  let op : OperatorDef := {}
  let op := op.set_type "SoftmaxWithLoss"
  let op := op.add_input "pred"
  let op := op.add_input "label"
  let op := op.add_output "softmax"
  op.add_output "loss"

/-- Lines 127-137: the hand-written seed of the backward pass, a `ConstantFill` of
value 1.0 from `loss` to `loss_grad`, flagged as a gradient operator. -/
def lossGradSeedOp : OperatorDef :=
  let op : OperatorDef := {}
  let op := op.set_type "ConstantFill"
  let arg : Argument := {}
  let arg := arg.set_name "value"
  let arg := arg.set_f 1
  let op := op.add_arg arg
  let op := op.add_input "loss"
  let op := op.add_output "loss_grad"
  op.set_is_gradient_op true

/-- Lines 70-71 and 94-137: the state of `predictModel` and of the vector
`gradient_ops` when the gradient loop is reached. The seed operator is added to the
graph but not pushed onto `gradient_ops`. -/
def forwardGraph : NetDef × List OperatorDef :=
  let predictModel : NetDef := {}
  let predictModel := predictModel.set_name "my first net"
  let gradient_ops : List OperatorDef := []
  let predictModel := predictModel.add_op fcOp
  let gradient_ops := gradient_ops ++ [fcOp]
  let predictModel := predictModel.add_op sigmoidOp
  let gradient_ops := gradient_ops ++ [sigmoidOp]
  let predictModel := predictModel.add_op softmaxWithLossOp
  let gradient_ops := gradient_ops ++ [softmaxWithLossOp]
  let predictModel := predictModel.add_op lossGradSeedOp
  (predictModel, gradient_ops)

/-! ## Gradient synthesis (lines 138-148) -/

/-- The framework function `GetGradientForOp`, a parameter of the development: the
lookup either fails or returns a `GradientOpsMeta`. -/
abbrev GradientRegistry := OperatorDef → List GradientWrapper → Except String GradientOpsMeta

/-- Lines 140-143: a vector of `output_size()` default wrappers whose `dense_`
fields are then assigned in an index loop. -/
def gradientPlaceholders (op : OperatorDef) : List GradientWrapper :=
  let output : List GradientWrapper := List.replicate op.output_size {}
  (List.range output.length).foldl
    (fun output i => output.modify (fun w => { w with dense_ := op.outputAt i ++ "_grad" }) i)
    output

/-- Lines 144-147, one pass of the loop body: query the registry, copy `ops_[0]`
into a new operator of the graph and flag it. Indexing an empty `ops_` is an error. -/
def gradientStep (reg : GradientRegistry) (predictModel : NetDef) (op : OperatorDef) :
    Except String NetDef :=
  match reg op (gradientPlaceholders op) with
  | .error e => .error e
  | .ok m =>
    match m.ops_ with
    | [] => .error "ops_[0]: index out of range"
    | g :: _ => .ok (predictModel.add_op (g.set_is_gradient_op true))

/-- Line 139: the range-for over `gradient_ops`. -/
def gradientLoop (reg : GradientRegistry) : NetDef → List OperatorDef → Except String NetDef
  | predictModel, [] => .ok predictModel
  | predictModel, op :: rest =>
    match gradientStep reg predictModel op with
    | .error e => .error e
    | .ok predictModel => gradientLoop reg predictModel rest

/-- Lines 70-148: the complete forward+backward graph; `std::reverse` on line 138
turns `gradient_ops` around before the loop. -/
def buildPredictModel (reg : GradientRegistry) : Except String NetDef :=
  let predictModel := forwardGraph.1
  let gradient_ops := forwardGraph.2
  let gradient_ops := gradient_ops.reverse
  gradientLoop reg predictModel gradient_ops

/-! ## Tensors, blobs and the workspace -/

/-- Modelled from the spec: storage of a framework tensor, "a dense multi-dimensional
array of a fixed element type (32-bit float or 32-bit integer here), with an explicit
shape and row-major contiguous storage". Nothing is allocated before the first
`mutable_data` call, which also fixes the element type. -/
inductive Storage (F : Type) where
  | unallocated
  | floats (xs : List F)
  | ints (xs : List Int)
deriving DecidableEq

/-- Modelled from the spec: the framework class `TensorCPU`, a shape and its storage
("created with a shape, resized in place, then filled by raw bulk copy"). A tensor that
was never resized is treated as having rank 0. -/
structure TensorCPU (F : Type) where
  dims : List Nat := []
  storage : Storage F := .unallocated
deriving DecidableEq

/-- Modelled from the spec: the framework class `Blob`, "a named, mutable, type-erased
container holding one tensor"; here it holds a `TensorCPU` or nothing. -/
structure Blob (F : Type) where
  tensor : Option (TensorCPU F) := none
deriving DecidableEq

/-- Modelled from the spec: the framework class `Workspace`, "the container owning all
blobs for a run", each blob "identified by a unique string key"; the entries are kept in
creation order. -/
structure Workspace (F : Type) where
  blob_map_ : List (String × Blob F) := []
deriving DecidableEq

section Tensor

variable {F : Type}

/-- Bytes per element: `sizeof(float) = sizeof(int) = 4`, and 0 while the tensor has
no element type. -/
def Storage.itemsize : Storage F → Nat
  | .unallocated => 0
  | .floats _ => 4
  | .ints _ => 4

/-- The call `tensor->size()`: the product of the dimensions. -/
def TensorCPU.size (t : TensorCPU F) : Nat := t.dims.prod

/-- The call `tensor->nbytes()`: `size() * itemsize()`. -/
def TensorCPU.nbytes (t : TensorCPU F) : Nat := t.size * t.storage.itemsize

/-- Modelled from the spec: the call `tensor->Resize(d0, d1, ...)` replaces the shape;
"storage is reallocated only on resize", so the buffer is kept when the number of
elements stays the same and released otherwise. -/
def TensorCPU.Resize (t : TensorCPU F) (dims : List Nat) : TensorCPU F :=
  if dims.prod = t.size then { t with dims := dims }
  else { dims := dims, storage := .unallocated }

/-- The call `tensor->mutable_data<float>()`: an existing float buffer is returned as
it is, otherwise `size()` floats are allocated; `fresh i` is the indeterminate value
found at offset `i` of new memory. -/
def TensorCPU.mutable_data_float (t : TensorCPU F) (fresh : Nat → F) : TensorCPU F :=
  match t.storage with
  | .floats _ => t
  | _ => { t with storage := .floats ((List.range t.size).map fresh) }

/-- The call `tensor->mutable_data<int>()`. -/
def TensorCPU.mutable_data_int (t : TensorCPU F) (fresh : Nat → Int) : TensorCPU F :=
  match t.storage with
  | .ints _ => t
  | _ => { t with storage := .ints ((List.range t.size).map fresh) }

/-- Reading `n` consecutive elements starting at `&src[0]`: the elements of the vector
and, past its end, whatever the memory behind it holds (`beyond`). -/
def readElems {α : Type} (src : List α) (beyond : Nat → α) (n : Nat) : List α :=
  (List.range n).map (fun i => src.getD i (beyond (i - src.length)))

/-- The libc call `memcpy(dst, &src[0], 4 * n)` on element buffers: the first `n`
elements of the destination are replaced by the `n` elements read from the source. -/
def memcpy {α : Type} (dst src : List α) (beyond : Nat → α) (n : Nat) : List α :=
  readElems src beyond n ++ dst.drop n

/-- The copy stays inside the source vector. -/
def copyInBounds {α : Type} (src : List α) (n : Nat) : Prop := n ≤ src.length

instance {α : Type} (src : List α) (n : Nat) : Decidable (copyInBounds src n) :=
  inferInstanceAs (Decidable (n ≤ src.length))

/-- The order in which the two arguments `tensor->mutable_data<T>()` and
`tensor->nbytes()` of one `memcpy` call are evaluated. C++ leaves the order of
evaluation of function arguments unspecified, so both orders are behaviours of the
program. -/
inductive ArgOrder where
  | mutableDataFirst
  | nbytesFirst
deriving DecidableEq

/-- The value of the argument `tensor->nbytes()` in
`memcpy(tensor->mutable_data<float>(), &v[0], tensor->nbytes())`: read after
`mutable_data<float>()` has given the tensor its element type, or before. -/
def TensorCPU.copyBytesFloats (t : TensorCPU F) (order : ArgOrder) (fresh : Nat → F) : Nat :=
  match order with
  | .mutableDataFirst => (t.mutable_data_float fresh).nbytes
  | .nbytesFirst => t.nbytes

/-- The value of the argument `tensor->nbytes()` in
`memcpy(tensor->mutable_data<int>(), &v[0], tensor->nbytes())`. -/
def TensorCPU.copyBytesInts (t : TensorCPU F) (order : ArgOrder) (fresh : Nat → Int) : Nat :=
  match order with
  | .mutableDataFirst => (t.mutable_data_int fresh).nbytes
  | .nbytesFirst => t.nbytes

/-- The statement `memcpy(tensor->mutable_data<float>(), &v[0], tensor->nbytes())`
under the given evaluation order of its arguments; the byte count is turned into an
element count by dividing by `sizeof(float)`. -/
def TensorCPU.copyFromFloats (t : TensorCPU F) (order : ArgOrder) (fresh : Nat → F)
    (v : List F) : TensorCPU F :=
  let n := t.copyBytesFloats order fresh
  let t := t.mutable_data_float fresh
  match t.storage with
  | .floats dst => { t with storage := .floats (memcpy dst v fresh (n / 4)) }
  | _ => t

/-- The statement `memcpy(tensor->mutable_data<int>(), &v[0], tensor->nbytes())` under
the given evaluation order of its arguments. -/
def TensorCPU.copyFromInts (t : TensorCPU F) (order : ArgOrder) (fresh : Nat → Int)
    (v : List Int) : TensorCPU F :=
  let n := t.copyBytesInts order fresh
  let t := t.mutable_data_int fresh
  match t.storage with
  | .ints dst => { t with storage := .ints (memcpy dst v fresh (n / 4)) }
  | _ => t

/-- The call `blob->GetMutable<TensorCPU>()`: the tensor held by the blob, or a new
default tensor when the blob is empty. -/
def Blob.GetMutable (b : Blob F) : TensorCPU F := b.tensor.getD {}

/-- Modelled from the spec: the call `workspace.GetBlob(name)` looks the name up;
`none` stands for the null pointer returned for a missing name. -/
def Workspace.GetBlob (ws : Workspace F) (name : String) : Option (Blob F) :=
  (ws.blob_map_.find? (fun e => e.1 == name)).map Prod.snd

/-- The call `workspace.HasBlob(name)`. -/
def Workspace.HasBlob (ws : Workspace F) (name : String) : Bool := (ws.GetBlob name).isSome

/-- Modelled from the spec: the call `workspace.CreateBlob(name)`. Blob names are unique
and blobs "live for the duration of the workspace": an existing blob is kept, otherwise
an empty blob is added under the name. -/
def Workspace.CreateBlob (ws : Workspace F) (name : String) : Workspace F :=
  if ws.HasBlob name then ws else { blob_map_ := ws.blob_map_ ++ [(name, {})] }

/-- A write through a blob pointer obtained from the workspace. -/
def Workspace.store (ws : Workspace F) (name : String) (b : Blob F) : Workspace F :=
  { blob_map_ := ws.blob_map_.map (fun e => if e.1 == name then (e.1, b) else e) }

/-- Lines 29-32 and 55-57: `CreateBlob(name)->GetMutable<TensorCPU>()`, `Resize`,
`memcpy` from a float vector. -/
def Workspace.feedFloats (ws : Workspace F) (order : ArgOrder) (fresh : Nat → F)
    (name : String) (dims : List Nat) (v : List F) : Workspace F :=
  let ws := ws.CreateBlob name
  let tensor := ((ws.GetBlob name).getD {}).GetMutable
  let tensor := tensor.Resize dims
  let tensor := tensor.copyFromFloats order fresh v
  ws.store name { tensor := some tensor }

/-- Lines 62-64: `CreateBlob(name)->GetMutable<TensorCPU>()`, `Resize`, `memcpy` from
an int vector. -/
def Workspace.feedInts (ws : Workspace F) (order : ArgOrder) (fresh : Nat → Int)
    (name : String) (dims : List Nat) (v : List Int) : Workspace F :=
  let ws := ws.CreateBlob name
  let tensor := ((ws.GetBlob name).getD {}).GetMutable
  let tensor := tensor.Resize dims
  let tensor := tensor.copyFromInts order fresh v
  ws.store name { tensor := some tensor }

/-- Lines 188-189: the same for an int vector. -/
def Workspace.refreshInts (ws : Workspace F) (order : ArgOrder) (fresh : Nat → Int)
    (name : String) (v : List Int) : Option (Workspace F) :=
  match ws.GetBlob name with
  | none => none
  | some blob =>
    let tensor := blob.GetMutable
    let tensor := tensor.copyFromInts order fresh v
    some (ws.store name { tensor := some tensor })

end Tensor

/-! ## Random inputs -/

/-- The libc constant `RAND_MAX` (glibc: `2^31 - 1`). -/
def RAND_MAX : Int := 2147483647

/-- Two-complement wrap-around of a 32-bit signed `int`. -/
def wrapInt32 (v : Int) : Int := (v + 2147483648) % 4294967296 - 2147483648

/-- Lines 50 and 177: `static_cast<int>(10 * rand() / RAND_MAX)` for the value `r`
returned by `rand()`; the product is an `int`, the division truncates. -/
def labelOf (r : Int) : Int := Int.tdiv (wrapInt32 (10 * r)) RAND_MAX

/-! ## The driver -/

/-- What the program takes from the C library and from the framework. `rand k` is
the value returned by the `k`-th call of `rand()`, `toFloat r` is the float
`static_cast<float>(r) / static_cast<float>(RAND_MAX)`, `freshFloat` and `freshInt`
give the indeterminate contents of memory the program never wrote, and the last three
fields are the framework entry points `GetGradientForOp`, `CreateNet` and `Net::Run`
(a net is represented by its definition). `argOrder l` is the order in which the
compiler evaluates the two arguments `mutable_data` and `nbytes` of the `memcpy` call on
source line `l` (lines 32, 57, 64, 183 and 189). -/
structure Env (F : Type) where
  rand : Nat → Nat
  toFloat : Nat → F
  freshFloat : Nat → F
  freshInt : Nat → Int
  argOrder : Nat → ArgOrder
  GetGradientForOp : GradientRegistry
  CreateNet : NetDef → Workspace F → Except String (Workspace F)
  Run : NetDef → Workspace F → Except String (Workspace F)

/-- Actions of the driver that are visible from outside. -/
inductive Event where
  | print (what : String)
  | feed (blob : String)
  | refresh (blob : String)
  | createNet (net : String)
  | runNet (net : String)
deriving DecidableEq

/-- State of the driver: the workspace, the number of `rand()` calls made, the
actions performed so far (oldest first) and the fatal error that stopped it, if any. -/
structure Machine (F : Type) where
  workspace : Workspace F := {}
  randCalls : Nat := 0
  trace : List Event := []
  error : Option String := none

section Driver

variable {F : Type}

def Machine.log (m : Machine F) (e : Event) : Machine F := { m with trace := m.trace ++ [e] }

def Machine.fail (m : Machine F) (msg : String) : Machine F := { m with error := some msg }

/-- A statement is executed only while no fatal error has occurred. -/
def Machine.exec (m : Machine F) (stmt : Machine F → Machine F) : Machine F :=
  match m.error with
  | some _ => m
  | none => stmt m

/-- Lines 19-22, 42-45, 169-172: a vector of `n` floats, each from one `rand()` call. -/
def randomFloats (env : Env F) (n : Nat) (m : Machine F) : List F × Machine F :=
  ((List.range n).map (fun k => env.toFloat (env.rand (m.randCalls + k))),
   { m with randCalls := m.randCalls + n })

/-- Lines 48-51, 175-178: a vector of `n` labels, each from one `rand()` call. -/
def randomLabels (env : Env F) (n : Nat) (m : Machine F) : List Int × Machine F :=
  ((List.range n).map (fun k => labelOf (env.rand (m.randCalls + k))),
   { m with randCalls := m.randCalls + n })

/-- Lines 9-39: banner, the vector `x`, its feed into `my_x` and the fetch. -/
def introBlock (env : Env F) (m : Machine F) : Machine F :=
  m.exec fun m =>
    let m := m.log (.print "\n")
    let m := m.log (.print "## Caffe2 Intro Tutorial ##\n")
    let m := m.log (.print "https://caffe2.ai/docs/intro-tutorial.html\n")
    let m := m.log (.print "\n")
    let (x, m) := randomFloats env (4 * 3 * 2) m
    let m := m.log (.print "x")
    let m := { m with workspace := m.workspace.feedFloats (env.argOrder 32) env.freshFloat "my_x" [4, 3, 2] x }
    let m := m.log (.feed "my_x")
    match m.workspace.GetBlob "my_x" with
    | none => m.fail "my_x: null blob"
    | some _ => m.log (.print "my_x")

/-- Lines 41-65: the vectors `data` and `label` and their first feed. -/
def feedBlock (env : Env F) (m : Machine F) : Machine F :=
  m.exec fun m =>
    let (data, m) := randomFloats env (16 * 100) m
    let (label, m) := randomLabels env 16 m
    let m := { m with workspace := m.workspace.feedFloats (env.argOrder 57) env.freshFloat "data" [16, 100] data }
    let m := m.log (.feed "data")
    let m := { m with workspace := m.workspace.feedInts (env.argOrder 64) env.freshInt "label" [16, 100] label }
    m.log (.feed "label")

/-- Lines 159 and 163: `CreateNet(model, &workspace)`. -/
def createNet (env : Env F) (model : NetDef) (m : Machine F) : Machine F :=
  m.exec fun m =>
    match env.CreateNet model m.workspace with
    | .error e => m.fail e
    | .ok ws => { m with workspace := ws }.log (.createNet model.name)

/-- Lines 160 and 194: `net->Run()`. -/
def runNet (env : Env F) (net : NetDef) (m : Machine F) : Machine F :=
  m.exec fun m =>
    match env.Run net m.workspace with
    | .error e => m.fail e
    | .ok ws => { m with workspace := ws }.log (.runNet net.name)

end Driver

/-! ## Definitions used to state the properties -/

section Statements

variable {F : Type}

/-- The first backward operator the registry returns when it is asked, the way the
gradient loop asks, for the gradient of `op`; `none` when the lookup fails or returns
no operator. -/
def firstGradient (reg : GradientRegistry) (op : OperatorDef) : Option OperatorDef :=
  match reg op (gradientPlaceholders op) with
  | .ok m => m.ops_.head?
  | .error _ => none

/-- A registry used to exercise the theorems: every operator has one backward operator,
named after it. -/
def demoRegistry : GradientRegistry := fun op grads =>
  .ok { ops_ := [{ type := op.type ++ "Gradient",
                   input := op.input ++ grads.map (fun w => w.dense_),
                   output := op.input.map (fun n => n ++ "_grad") }],
        g_input_ := op.input.map (fun n => { dense_ := n ++ "_grad" }) }

/-- Lines 9-65 leave this trace. -/
def setupTrace : List Event :=
  [.print "\n", .print "## Caffe2 Intro Tutorial ##\n",
   .print "https://caffe2.ai/docs/intro-tutorial.html\n", .print "\n",
   .print "x", .feed "my_x", .print "my_x", .feed "data", .feed "label"]

/-- Lines 9-65 as one step from the initial state. -/
def setup (env : Env F) : Machine F := feedBlock env (introBlock env {})

/-- Name binding along a list of operators: every input of an operator is available
when the operator is reached, where an operator makes its outputs available to the
operators after it. -/
def wellBound (available : List String) : List OperatorDef → Bool
  | [] => true
  | op :: rest =>
    op.input.all (fun n => decide (n ∈ available)) && wellBound (available ++ op.output) rest

/-- The shape of the tensor held by blob `name`, if there is one. -/
def Workspace.tensorShape {F : Type} (ws : Workspace F) (name : String) : Option (List Nat) :=
  ((ws.GetBlob name).bind (fun b => b.tensor)).map (fun t => t.dims)

/-- Modelled from the spec: an operator output. Blobs "are created on first feed or
first operator output" and an operator run "mutates output blobs in the workspace": the
blob is created if it is missing, its tensor is resized to `dims` and holds `values`. -/
def Workspace.fillFloats {F : Type} (ws : Workspace F) (name : String) (dims : List Nat)
    (values : List F) : Workspace F :=
  let ws := ws.CreateBlob name
  let tensor := ((ws.GetBlob name).getD {}).GetMutable
  let tensor := tensor.Resize dims
  ws.store name { tensor := some { tensor with storage := .floats values } }

/-- Modelled from the spec: the fill operators `XavierFill` and `ConstantFill` are
implemented by the framework, not by this repository. Following the spec ("Running the
init graph populates blobs `fc_w` with shape `(10,100)` and `fc_b` with shape `(10,)`",
blobs "are created on first feed or first operator output"), a fill operator without
inputs creates its single output blob and gives it a float tensor whose shape is
the `shape` argument; `fill op i` is the value written at offset `i`. Any other
operator is outside this model. -/
def runFillOperator {F : Type} (fill : OperatorDef → Nat → F) (op : OperatorDef)
    (ws : Workspace F) : Option (Workspace F) :=
  if op.type = "XavierFill" ∨ op.type = "ConstantFill" then
    match op.input, op.output, op.arg.find? (fun a => a.name == "shape") with
    | [], [out], some shape =>
      let dims := shape.ints.map Int.toNat
      some (ws.fillFloats out dims ((List.range dims.prod).map (fill op)))
    | _, _, _ => none
  else none

/-- Modelled from the spec: `net.run()` "executes every operator in declaration order"
and "mutates output blobs in the workspace"; here for nets of fill operators. -/
def runFillNet {F : Type} (fill : OperatorDef → Nat → F) (net : NetDef) (ws : Workspace F) :
    Option (Workspace F) :=
  net.op.foldlM (fun ws op => runFillOperator fill op ws) ws

end Statements

/-! ## Lemmas on the workspace -/

section WorkspaceLemmas

variable {F : Type}

theorem Workspace.GetBlob_store (ws : Workspace F) (k k' : String) (b : Blob F) :
    (ws.store k b).GetBlob k' =
      if k' = k then (ws.GetBlob k').map (fun _ => b) else ws.GetBlob k' := by
  obtain ⟨l⟩ := ws
  simp only [Workspace.store, Workspace.GetBlob]
  induction l with
  | nil => simp
  | cons e l ih =>
    by_cases h1 : e.1 = k <;> by_cases h2 : e.1 = k' <;> by_cases h3 : k' = k <;>
      simp_all [List.find?_cons]

theorem Workspace.GetBlob_CreateBlob_self (ws : Workspace F) (k : String) :
    (ws.CreateBlob k).GetBlob k = some ((ws.GetBlob k).getD {}) := by
  unfold Workspace.CreateBlob Workspace.HasBlob
  cases h : ws.GetBlob k with
  | some b => simp [h]
  | none =>
    simp only [Workspace.GetBlob, Option.map_eq_none'] at h
    simp [Workspace.GetBlob, List.find?_append, h]

theorem Workspace.GetBlob_CreateBlob_ne (ws : Workspace F) {k k' : String} (h : k' ≠ k) :
    (ws.CreateBlob k).GetBlob k' = ws.GetBlob k' := by
  unfold Workspace.CreateBlob
  split
  · rfl
  · have hk : ¬ k = k' := fun e => h e.symm
    simp [Workspace.GetBlob, List.find?_append, hk]

theorem Workspace.GetBlob_feedFloats_self (ws : Workspace F) (order : ArgOrder) (fresh : Nat → F) (k : String)
    (dims : List Nat) (v : List F) :
    (ws.feedFloats order fresh k dims v).GetBlob k =
      some (Blob.mk (some
        ((((ws.GetBlob k).getD {}).GetMutable.Resize dims).copyFromFloats order fresh v))) := by
  simp [Workspace.feedFloats, Workspace.GetBlob_store, Workspace.GetBlob_CreateBlob_self]

theorem Workspace.GetBlob_feedFloats_ne (ws : Workspace F) (order : ArgOrder) (fresh : Nat → F) {k k' : String}
    (h : k' ≠ k) (dims : List Nat) (v : List F) :
    (ws.feedFloats order fresh k dims v).GetBlob k' = ws.GetBlob k' := by
  simp [Workspace.feedFloats, Workspace.GetBlob_store, Workspace.GetBlob_CreateBlob_ne, h]

theorem Workspace.GetBlob_feedInts_self (ws : Workspace F) (order : ArgOrder) (fresh : Nat → Int) (k : String)
    (dims : List Nat) (v : List Int) :
    (ws.feedInts order fresh k dims v).GetBlob k =
      some (Blob.mk (some
        ((((ws.GetBlob k).getD {}).GetMutable.Resize dims).copyFromInts order fresh v))) := by
  simp [Workspace.feedInts, Workspace.GetBlob_store, Workspace.GetBlob_CreateBlob_self]

theorem Workspace.GetBlob_feedInts_ne (ws : Workspace F) (order : ArgOrder) (fresh : Nat → Int) {k k' : String}
    (h : k' ≠ k) (dims : List Nat) (v : List Int) :
    (ws.feedInts order fresh k dims v).GetBlob k' = ws.GetBlob k' := by
  simp [Workspace.feedInts, Workspace.GetBlob_store, Workspace.GetBlob_CreateBlob_ne, h]

theorem readElems_exact {α : Type} (src : List α) (beyond : Nat → α) :
    readElems src beyond src.length = src := by
  apply List.ext_getElem
  · simp [readElems]
  · intro i h1 h2
    simp [readElems] at h1 ⊢
    simp [List.getD, List.getElem?_eq_getElem h2]

theorem readElems_past {α : Type} (src : List α) (beyond : Nat → α) (k : Nat) :
    readElems src beyond (src.length + k) = src ++ (List.range k).map beyond := by
  apply List.ext_getElem
  · simp [readElems]
  · intro i h1 h2
    simp [readElems] at h1 ⊢
    by_cases hi : i < src.length
    · simp [List.getD, List.getElem?_eq_getElem hi, List.getElem_append_left hi]
    · have hi2 : src.length ≤ i := Nat.le_of_not_lt hi
      simp [List.getD, List.getElem?_eq_none hi2, List.getElem_append_right hi2]

end WorkspaceLemmas

/-! ## Lemmas on graph construction -/

theorem gradientPlaceholders_fold (g : Nat → GradientWrapper → GradientWrapper)
    (init : List GradientWrapper) (k j : Nat) :
    ((List.range k).foldl (fun output i => output.modify (g i) i) init)[j]? =
      (init[j]?).map (fun w => if j < k then g j w else w) := by
  induction k with
  | zero => simp
  | succ k ih =>
    rw [List.range_succ, List.foldl_append]
    simp only [List.foldl_cons, List.foldl_nil, List.getElem?_modify, ih]
    cases init[j]? with
    | none => simp
    | some w =>
      by_cases h1 : j < k
      · have h2 : ¬ k = j := by omega
        have h3 : j < k + 1 := by omega
        simp [h1, h2, h3]
      · by_cases h2 : k = j
        · subst h2
          simp
        · have h3 : ¬ j < k + 1 := by omega
          simp [h1, h2, h3]

theorem gradientPlaceholders_eq_map (op : OperatorDef) :
    gradientPlaceholders op =
      op.output.map (fun o => ({ dense_ := o ++ "_grad" } : GradientWrapper)) := by
  apply List.ext_getElem?
  intro j
  simp only [gradientPlaceholders, gradientPlaceholders_fold, List.length_replicate,
    OperatorDef.output_size, OperatorDef.outputAt, List.getElem?_map]
  by_cases h : j < op.output.length
  · simp [List.getElem?_replicate, h, List.getElem?_eq_getElem h, List.getD]
  · have h2 : op.output.length ≤ j := Nat.le_of_not_lt h
    simp [List.getElem?_replicate, h, List.getElem?_eq_none h2]

theorem gradientStep_ok (reg : GradientRegistry) (predictModel : NetDef) (op : OperatorDef)
    (m : GradientOpsMeta) (g : OperatorDef) (rest : List OperatorDef)
    (hq : reg op (gradientPlaceholders op) = .ok m) (hm : m.ops_ = g :: rest) :
    gradientStep reg predictModel op =
      .ok { name := predictModel.name,
            op := predictModel.op ++ [{ g with is_gradient_op := true }] } := by
  simp [gradientStep, hq, hm, NetDef.add_op, OperatorDef.set_is_gradient_op]

theorem gradientStep_appends (reg : GradientRegistry) (predictModel net : NetDef)
    (op : OperatorDef) (h : gradientStep reg predictModel op = .ok net) :
    ∃ g, net.name = predictModel.name ∧ net.op = predictModel.op ++ [g] ∧
      g.is_gradient_op = true := by
  unfold gradientStep at h
  split at h
  · exact absurd h (by simp)
  · split at h
    · exact absurd h (by simp)
    · rename_i g _ _
      injection h with h
      subst h
      exact ⟨g.set_is_gradient_op true, rfl, rfl, rfl⟩

theorem gradientLoop_appends (reg : GradientRegistry) (ops : List OperatorDef) :
    ∀ (predictModel net : NetDef), gradientLoop reg predictModel ops = .ok net →
      ∃ grads, net.name = predictModel.name ∧ net.op = predictModel.op ++ grads ∧
        grads.length = ops.length ∧ ∀ g ∈ grads, g.is_gradient_op = true := by
  induction ops with
  | nil =>
    intro predictModel net h
    simp only [gradientLoop, Except.ok.injEq] at h
    subst h
    exact ⟨[], rfl, by simp, rfl, by simp⟩
  | cons op rest ih =>
    intro predictModel net h
    unfold gradientLoop at h
    split at h
    · exact absurd h (by simp)
    · rename_i pm hstep
      obtain ⟨g, hn, ho, hg⟩ := gradientStep_appends reg predictModel pm op hstep
      obtain ⟨grads, hn2, ho2, hl, hall⟩ := ih pm net h
      refine ⟨g :: grads, hn2.trans hn, ?_, by simp [hl], ?_⟩
      · rw [ho2, ho]
        simp
      · intro x hx
        rcases List.mem_cons.mp hx with rfl | hx
        · exact hg
        · exact hall x hx

theorem gradientStep_of_firstGradient (reg : GradientRegistry) (predictModel : NetDef)
    (op g : OperatorDef) (h : firstGradient reg op = some g) :
    gradientStep reg predictModel op = .ok (predictModel.add_op (g.set_is_gradient_op true)) := by
  unfold firstGradient at h
  unfold gradientStep
  split at h
  · rename_i m hm
    rw [hm]
    cases hops : m.ops_ with
    | nil => simp [hops] at h
    | cons a l =>
      simp [hops] at h
      subst h
      simp [hops]
  · exact absurd h (by simp)

/-! ## Lemmas on the driver -/

section DriverLemmas

variable {F : Type}

theorem setup_workspace (env : Env F) :
    (setup env).workspace =
      ((({} : Workspace F).feedFloats (env.argOrder 32) env.freshFloat "my_x" [4, 3, 2]
          ((List.range 24).map (fun k => env.toFloat (env.rand k)))).feedFloats
        (env.argOrder 57) env.freshFloat "data" [16, 100]
          ((List.range 1600).map (fun k => env.toFloat (env.rand (24 + k))))).feedInts
        (env.argOrder 64) env.freshInt "label" [16, 100]
          ((List.range 16).map (fun k => labelOf (env.rand (1624 + k)))) ∧
    (setup env).error = none ∧ (setup env).trace = setupTrace := by
  have hx : ∀ (ws : Workspace F) (v : List F),
      (ws.feedFloats (env.argOrder 32) env.freshFloat "my_x" [4, 3, 2] v).GetBlob "my_x" ≠ none := by
    intro ws v
    rw [Workspace.GetBlob_feedFloats_self]
    simp
  have hintro : introBlock env ({} : Machine F) =
      { workspace := ({} : Workspace F).feedFloats (env.argOrder 32) env.freshFloat "my_x" [4, 3, 2]
          ((List.range 24).map (fun k => env.toFloat (env.rand k))),
        randCalls := 24,
        trace := [.print "\n", .print "## Caffe2 Intro Tutorial ##\n",
          .print "https://caffe2.ai/docs/intro-tutorial.html\n", .print "\n",
          .print "x", .feed "my_x", .print "my_x"],
        error := none } := by
    simp only [introBlock, Machine.exec, randomFloats, Machine.log]
    split
    · rename_i hnone
      exact absurd hnone (hx _ _)
    · simp
  unfold setup
  rw [hintro]
  simp [feedBlock, Machine.exec, randomFloats, randomLabels, Machine.log, setupTrace]

end DriverLemmas

/-! ## A complete execution exists -/

section Completion

variable {F : Type}

theorem Workspace.HasBlob_store (ws : Workspace F) (k n : String) (b : Blob F) :
    (ws.store k b).HasBlob n = ws.HasBlob n := by
  unfold Workspace.HasBlob
  rw [Workspace.GetBlob_store]
  split <;> simp

theorem Workspace.HasBlob_CreateBlob (ws : Workspace F) (k n : String) :
    (ws.CreateBlob k).HasBlob n = (ws.HasBlob n || decide (n = k)) := by
  by_cases h : n = k
  · subst h
    simp [Workspace.HasBlob, Workspace.GetBlob_CreateBlob_self]
  · simp [Workspace.HasBlob, Workspace.GetBlob_CreateBlob_ne ws h, h]

theorem Workspace.HasBlob_feedFloats (ws : Workspace F) (order : ArgOrder) (fresh : Nat → F) (k n : String)
    (dims : List Nat) (v : List F) :
    (ws.feedFloats order fresh k dims v).HasBlob n = (ws.HasBlob n || decide (n = k)) := by
  simp [Workspace.feedFloats, Workspace.HasBlob_store, Workspace.HasBlob_CreateBlob]

theorem Workspace.HasBlob_feedInts (ws : Workspace F) (order : ArgOrder) (fresh : Nat → Int) (k n : String)
    (dims : List Nat) (v : List Int) :
    (ws.feedInts order fresh k dims v).HasBlob n = (ws.HasBlob n || decide (n = k)) := by
  simp [Workspace.feedInts, Workspace.HasBlob_store, Workspace.HasBlob_CreateBlob]

end Completion

section Schedule

variable {F : Type}

end Schedule

/-! ## The label computation -/

theorem tdiv_eq_zero_of_abs_lt (w b : Int) (h1 : -b < w) (h2 : w < b) : Int.tdiv w b = 0 := by
  rcases le_or_lt 0 w with h | h
  · exact Int.tdiv_eq_zero_of_lt h h2
  · have h3 : Int.tdiv (-w) b = 0 := Int.tdiv_eq_zero_of_lt (by omega) (by omega)
    rw [Int.neg_tdiv] at h3
    omega

theorem wrapInt32_ten_mul_bounds (r : Int) (h0 : 0 ≤ r) (h1 : r ≤ 2147483647)
    (h2 : r ≠ 1073741824) :
    -2147483647 < wrapInt32 (10 * r) ∧ wrapInt32 (10 * r) < 2147483647 := by
  unfold wrapInt32
  have hd := Int.ediv_add_emod (10 * r + 2147483648) 4294967296
  have hn := Int.emod_nonneg (10 * r + 2147483648) (show (4294967296 : Int) ≠ 0 by decide)
  have hl := Int.emod_lt_of_pos (10 * r + 2147483648) (show (0 : Int) < 4294967296 by decide)
  generalize (10 * r + 2147483648) % 4294967296 = m at hd hn hl ⊢
  generalize (10 * r + 2147483648) / 4294967296 = q at hd
  have hq0 : 0 ≤ q := by omega
  have hq5 : q ≤ 5 := by omega
  interval_cases q <;> omega

/-- Every value of `rand()` other than `2^30` gives the label 0: below `RAND_MAX / 10`
the quotient is 0, and above it the wrapped product is smaller than `RAND_MAX` in
absolute value. -/
theorem labelOf_eq_zero (r : Int) (h0 : 0 ≤ r) (h1 : r ≤ RAND_MAX) (h2 : r ≠ 1073741824) :
    labelOf r = 0 := by
  obtain ⟨h3, h4⟩ := wrapInt32_ten_mul_bounds r h0 h1 h2
  exact tdiv_eq_zero_of_abs_lt _ _ h3 h4

/-! ## The claims -/

/-- C1: for every gradient registry that yields a first backward operator for each of
FC, Sigmoid and SoftmaxWithLoss, graph construction succeeds and the forward+backward
graph has exactly seven operators, in the order FC, Sigmoid, SoftmaxWithLoss, the
ConstantFill loss-gradient seed, gradient of SoftmaxWithLoss, gradient of Sigmoid,
gradient of FC. -/
theorem predictModel_operator_order (reg : GradientRegistry) (gFC gSigmoid gSoftmax : OperatorDef)
    (hFC : firstGradient reg fcOp = some gFC)
    (hSigmoid : firstGradient reg sigmoidOp = some gSigmoid)
    (hSoftmax : firstGradient reg softmaxWithLossOp = some gSoftmax) :
    ∃ net, buildPredictModel reg = .ok net ∧ net.op.length = 7 ∧
      net.op = [fcOp, sigmoidOp, softmaxWithLossOp, lossGradSeedOp,
        gSoftmax.set_is_gradient_op true, gSigmoid.set_is_gradient_op true,
        gFC.set_is_gradient_op true] := by
  have hlist : forwardGraph.2.reverse = [softmaxWithLossOp, sigmoidOp, fcOp] := by decide
  have hops : forwardGraph.1.op = [fcOp, sigmoidOp, softmaxWithLossOp, lossGradSeedOp] := by
    decide
  refine ⟨{ name := "my first net",
             op := [fcOp, sigmoidOp, softmaxWithLossOp, lossGradSeedOp,
               gSoftmax.set_is_gradient_op true, gSigmoid.set_is_gradient_op true,
               gFC.set_is_gradient_op true] }, ?_, rfl, rfl⟩
  have hname : forwardGraph.1.name = "my first net" := by decide
  unfold buildPredictModel
  simp only [hlist, gradientLoop, gradientStep_of_firstGradient reg _ _ _ hSoftmax,
    gradientStep_of_firstGradient reg _ _ _ hSigmoid,
    gradientStep_of_firstGradient reg _ _ _ hFC]
  simp [NetDef.add_op, hops, hname]

/-- Witness of C1 on the registry `demoRegistry`. -/
theorem predictModel_operator_order_witness :
    ∃ net, buildPredictModel demoRegistry = .ok net ∧ net.op.length = 7 ∧
      net.op.map (fun o => o.type) = ["FC", "Sigmoid", "SoftmaxWithLoss", "ConstantFill",
        "SoftmaxWithLossGradient", "SigmoidGradient", "FCGradient"] := by
  obtain ⟨net, h1, h2, h3⟩ := predictModel_operator_order demoRegistry
    { type := "FCGradient", input := ["data", "fc_w", "fc_b", "fc1_grad"],
      output := ["data_grad", "fc_w_grad", "fc_b_grad"] }
    { type := "SigmoidGradient", input := ["fc1", "pred_grad"], output := ["fc1_grad"] }
    { type := "SoftmaxWithLossGradient", input := ["pred", "label", "softmax_grad", "loss_grad"],
      output := ["pred_grad", "label_grad"] }
    (by decide) (by decide) (by decide)
  refine ⟨net, h1, h2, ?_⟩
  rw [h3]
  decide

theorem TensorCPU.Resize_dims {F : Type} (t : TensorCPU F) (dims : List Nat) :
    (t.Resize dims).dims = dims := by
  unfold TensorCPU.Resize
  split <;> rfl

theorem TensorCPU.copyFromFloats_dims {F : Type} (t : TensorCPU F) (order : ArgOrder)
    (fresh : Nat → F) (v : List F) : (t.copyFromFloats order fresh v).dims = t.dims := by
  obtain ⟨d, st⟩ := t
  cases st <;> cases order <;> rfl

theorem TensorCPU.copyFromInts_dims {F : Type} (t : TensorCPU F) (order : ArgOrder)
    (fresh : Nat → Int) (v : List Int) : (t.copyFromInts order fresh v).dims = t.dims := by
  obtain ⟨d, st⟩ := t
  cases st <;> cases order <;> rfl

theorem Workspace.GetBlob_empty {F : Type} (k : String) :
    ({} : Workspace F).GetBlob k = none := rfl

/-! ## The bulk copy -/

theorem TensorCPU.Resize_default {F : Type} (dims : List Nat) :
    ((({} : Blob F).GetMutable).Resize dims) = { dims := dims, storage := .unallocated } := by
  unfold TensorCPU.Resize Blob.GetMutable
  split <;> rfl

theorem drop_prod_eq_nil {α : Type} (old : List α) (n : Nat) (h : old.length = n) :
    List.drop (n * 4 / 4) old = [] := by
  rw [Nat.mul_div_cancel n (by decide : 0 < 4)]
  exact List.drop_eq_nil_of_le (by omega)

theorem TensorCPU.copyFromInts_typed {F : Type} (dims : List Nat) (old : List Int)
    (order : ArgOrder) (fresh : Nat → Int) (v : List Int) (h : old.length = dims.prod) :
    ({ dims := dims, storage := .ints old } : TensorCPU F).copyFromInts order fresh v =
      { dims := dims, storage := .ints (readElems v fresh dims.prod) } := by
  cases order <;>
    simp [TensorCPU.copyFromInts, TensorCPU.copyBytesInts, TensorCPU.mutable_data_int,
      TensorCPU.nbytes, TensorCPU.size, Storage.itemsize, memcpy, Nat.le_of_eq h]

theorem TensorCPU.copyFromFloats_untyped_nbytesFirst {F : Type} (dims : List Nat)
    (fresh : Nat → F) (v : List F) :
    ({ dims := dims, storage := .unallocated } : TensorCPU F).copyFromFloats .nbytesFirst
        fresh v =
      { dims := dims, storage := .floats ((List.range dims.prod).map fresh) } := by
  simp [TensorCPU.copyFromFloats, TensorCPU.copyBytesFloats, TensorCPU.mutable_data_float,
    TensorCPU.nbytes, TensorCPU.size, Storage.itemsize, memcpy, readElems]

theorem TensorCPU.copyFromFloats_untyped_mutableDataFirst {F : Type} (dims : List Nat)
    (fresh : Nat → F) (v : List F) :
    ({ dims := dims, storage := .unallocated } : TensorCPU F).copyFromFloats .mutableDataFirst
        fresh v =
      { dims := dims, storage := .floats (readElems v fresh dims.prod) } := by
  have hd := drop_prod_eq_nil ((List.range dims.prod).map fresh) dims.prod (by simp)
  simp [TensorCPU.copyFromFloats, TensorCPU.copyBytesFloats, TensorCPU.mutable_data_float,
    TensorCPU.nbytes, TensorCPU.size, Storage.itemsize, memcpy, hd]

theorem TensorCPU.copyFromInts_untyped {F : Type} (dims : List Nat) (order : ArgOrder)
    (fresh : Nat → Int) (v : List Int) :
    ∃ xs, ({ dims := dims, storage := .unallocated } : TensorCPU F).copyFromInts order
        fresh v = { dims := dims, storage := .ints xs } ∧ xs.length = dims.prod := by
  cases order
  · refine ⟨readElems v fresh dims.prod, ?_, by simp [readElems]⟩
    have hd := drop_prod_eq_nil ((List.range dims.prod).map fresh) dims.prod (by simp)
    simp [TensorCPU.copyFromInts, TensorCPU.copyBytesInts, TensorCPU.mutable_data_int,
      TensorCPU.nbytes, TensorCPU.size, Storage.itemsize, memcpy, hd]
  · refine ⟨(List.range dims.prod).map fresh, ?_, by simp⟩
    simp [TensorCPU.copyFromInts, TensorCPU.copyBytesInts, TensorCPU.mutable_data_int,
      TensorCPU.nbytes, TensorCPU.size, Storage.itemsize, memcpy, readElems]

/-- When `mutable_data<float>()` is evaluated before `nbytes()` on line 32, the feed of a
24-element vector followed by the fetch returns the vector. -/
theorem my_x_feed_mutableDataFirst {F : Type} (fresh : Nat → F) (x : List F)
    (hx : x.length = 4 * 3 * 2) :
    (({} : Workspace F).feedFloats .mutableDataFirst fresh "my_x" [4, 3, 2] x).GetBlob "my_x" =
      some { tensor := some { dims := [4, 3, 2], storage := .floats x } } := by
  have hread : readElems x fresh ([4, 3, 2] : List Nat).prod = x := by
    have h24 : ([4, 3, 2] : List Nat).prod = x.length := by
      rw [hx]
      decide
    rw [h24]
    exact readElems_exact x fresh
  rw [Workspace.GetBlob_feedFloats_self, Workspace.GetBlob_empty]
  simp only [Option.getD]
  rw [TensorCPU.Resize_default, TensorCPU.copyFromFloats_untyped_mutableDataFirst, hread]

/-- C3 (evaluation of the code): when the compiler evaluates `tensor->nbytes()` before
`tensor->mutable_data<float>()` in the `memcpy` call of line 32, the tensor has no
element type yet, `nbytes()` is 0 and nothing is copied: after the feed of any vector
`x`, the fetch of `my_x` returns a tensor of shape (4,3,2) whose 24 elements are the
never-written contents of the new buffer, not `x`. The second part evaluates this on
the vector 1, 2, ..., 24 with a zeroed buffer. -/
theorem my_x_feed_copies_nothing {F : Type} (fresh : Nat → F) (x : List F) :
    (({} : Workspace F).feedFloats .nbytesFirst fresh "my_x" [4, 3, 2] x).GetBlob "my_x" =
      some { tensor := some { dims := [4, 3, 2],
                              storage := .floats ((List.range 24).map fresh) } } ∧
    (({} : Workspace Nat).feedFloats .nbytesFirst (fun _ => 0) "my_x" [4, 3, 2]
        (List.range' 1 24)).GetBlob "my_x" ≠
      some { tensor := some { dims := [4, 3, 2], storage := .floats (List.range' 1 24) } } := by
  refine ⟨?_, by decide⟩
  rw [Workspace.GetBlob_feedFloats_self, Workspace.GetBlob_empty]
  simp only [Option.getD]
  rw [TensorCPU.Resize_default, TensorCPU.copyFromFloats_untyped_nbytesFirst]
  rfl

theorem setup_label {F : Type} (env : Env F) :
    ∃ xs : List Int, (setup env).workspace.GetBlob "label" =
        some { tensor := some { dims := [16, 100], storage := .ints xs } } ∧
      xs.length = 1600 := by
  obtain ⟨hws, _, _⟩ := setup_workspace env
  obtain ⟨xs, hcopy, hlen⟩ := @TensorCPU.copyFromInts_untyped F [16, 100]
    (env.argOrder 64) env.freshInt
    ((List.range 16).map (fun k => labelOf (env.rand (1624 + k))))
  refine ⟨xs, ?_, hlen⟩
  rw [hws, Workspace.GetBlob_feedInts_self, Workspace.GetBlob_feedFloats_ne _ _ _ (by decide),
    Workspace.GetBlob_feedFloats_ne _ _ _ (by decide), Workspace.GetBlob_empty]
  simp only [Option.getD]
  rw [TensorCPU.Resize_default, hcopy]

/-- C6 (evaluation of the code): in every environment and under every evaluation order,
after the first feed the tensor in blob `label` has shape (16,100) and holds 1600 ints,
not 16. A refresh as on lines 188-189 of this blob from a 16-element vector (written
here as the first 16 values of an arbitrary `f`) passes `nbytes() = 6400` to `memcpy`,
that is 1600 elements, which is not within the 16-element source: the blob then holds
the 16 labels followed by 1584 values read from the memory behind the vector. -/
theorem label_blob_holds_1600 {F : Type} (env : Env F) (order : ArgOrder) (f : Nat → Int) :
    ∃ (t : TensorCPU F) (xs : List Int) (ws2 : Workspace F),
      (setup env).workspace.GetBlob "label" = some { tensor := some t } ∧
      t.dims = [16, 100] ∧ t.size = 1600 ∧ t.storage = .ints xs ∧ xs.length = 1600 ∧
      t.copyBytesInts order env.freshInt = 6400 ∧
      ¬ copyInBounds ((List.range 16).map f) (t.copyBytesInts order env.freshInt / 4) ∧
      (setup env).workspace.refreshInts order env.freshInt "label" ((List.range 16).map f) =
        some ws2 ∧
      ws2.GetBlob "label" =
        some (Blob.mk (some (TensorCPU.mk [16, 100]
          (.ints ((List.range 16).map f ++ (List.range 1584).map env.freshInt))))) := by
  obtain ⟨xs, hget, hlen⟩ := setup_label env
  have hprod : ([16, 100] : List Nat).prod = 1600 := by decide
  have hbytes : ∀ o : ArgOrder,
      ({ dims := [16, 100], storage := .ints xs } : TensorCPU F).copyBytesInts o env.freshInt
        = 6400 := by
    intro o
    cases o <;>
      simp [TensorCPU.copyBytesInts, TensorCPU.mutable_data_int, TensorCPU.nbytes,
        TensorCPU.size, Storage.itemsize]
  have hread : readElems ((List.range 16).map f) env.freshInt 1600 =
      (List.range 16).map f ++ (List.range 1584).map env.freshInt := by
    have h := readElems_past ((List.range 16).map f) env.freshInt 1584
    simp only [List.length_map, List.length_range] at h
    exact h
  refine ⟨{ dims := [16, 100], storage := .ints xs }, xs,
    (setup env).workspace.store "label" (Blob.mk (some
      ((Blob.mk (some (TensorCPU.mk [16, 100] (.ints xs)))).GetMutable.copyFromInts order
        env.freshInt ((List.range 16).map f)))),
    hget, rfl, hprod, rfl, hlen, hbytes order, ?_, ?_, ?_⟩
  · rw [hbytes order]
    unfold copyInBounds
    simp
  · unfold Workspace.refreshInts
    rw [hget]
  · rw [Workspace.GetBlob_store, if_pos rfl, hget]
    simp only [Blob.GetMutable, Option.getD, Option.map_some']
    rw [TensorCPU.copyFromInts_typed [16, 100] xs order env.freshInt _ (by rw [hlen, hprod]),
      hprod, hread]

theorem Workspace.tensorShape_fillFloats_self {F : Type} (ws : Workspace F) (k : String)
    (dims : List Nat) (v : List F) : (ws.fillFloats k dims v).tensorShape k = some dims := by
  simp [Workspace.tensorShape, Workspace.fillFloats, Workspace.GetBlob_store,
    Workspace.GetBlob_CreateBlob_self, TensorCPU.Resize_dims]

theorem Workspace.tensorShape_fillFloats_ne {F : Type} (ws : Workspace F) {k k2 : String}
    (h : k2 ≠ k) (dims : List Nat) (v : List F) :
    (ws.fillFloats k dims v).tensorShape k2 = ws.tensorShape k2 := by
  simp [Workspace.tensorShape, Workspace.fillFloats, Workspace.GetBlob_store,
    Workspace.GetBlob_CreateBlob_ne ws h, h]

theorem runFillOperator_of_shape {F : Type} (fill : OperatorDef → Nat → F) (op : OperatorDef)
    (ws : Workspace F) (out : String) (shape : Argument)
    (ht : op.type = "XavierFill" ∨ op.type = "ConstantFill") (hi : op.input = [])
    (ho : op.output = [out])
    (ha : op.arg.find? (fun a => a.name == "shape") = some shape) :
    runFillOperator fill op ws =
      some (ws.fillFloats out (shape.ints.map Int.toNat)
        ((List.range (shape.ints.map Int.toNat).prod).map (fill op))) := by
  unfold runFillOperator
  rw [if_pos ht, hi, ho, ha]

/-- C4: the initialization graph consists of exactly two operators, an `XavierFill`
without inputs, with output `fc_w` and `shape = [10, 100]`, followed by a
`ConstantFill` without inputs, with output `fc_b` and `shape = [10]`; and running it
under the fill-operator model, from any workspace, succeeds and leaves `fc_w` with
shape (10,100) and `fc_b` with shape (10). -/
theorem initModel_populates_parameters {F : Type} (fill : OperatorDef → Nat → F)
    (ws : Workspace F) :
    initModel.op =
      [{ type := "XavierFill", input := [], output := ["fc_w"],
         arg := [{ name := "shape", f := none, ints := [10, 100] }], is_gradient_op := false },
       { type := "ConstantFill", input := [], output := ["fc_b"],
         arg := [{ name := "shape", f := none, ints := [10] }], is_gradient_op := false }] ∧
    ∃ ws2, runFillNet fill initModel ws = some ws2 ∧
      ws2.tensorShape "fc_w" = some [10, 100] ∧ ws2.tensorShape "fc_b" = some [10] := by
  have hops : initModel.op =
      [{ type := "XavierFill", input := [], output := ["fc_w"],
         arg := [{ name := "shape", f := none, ints := [10, 100] }], is_gradient_op := false },
       { type := "ConstantFill", input := [], output := ["fc_b"],
         arg := [{ name := "shape", f := none, ints := [10] }], is_gradient_op := false }] := by
    decide
  refine ⟨hops, ?_⟩
  have hops2 : initModel.op = [xavierFillOp, constantFillOp] := by decide
  have h1 := runFillOperator_of_shape fill xavierFillOp ws "fc_w"
    { name := "shape", ints := [10, 100] } (by decide) (by decide) (by decide) (by decide)
  have h2 := fun ws1 => runFillOperator_of_shape fill constantFillOp ws1 "fc_b"
    { name := "shape", ints := [10] } (by decide) (by decide) (by decide) (by decide)
  unfold runFillNet
  rw [hops2, List.foldlM_cons, h1]
  simp only [Option.bind_eq_bind, Option.some_bind]
  rw [List.foldlM_cons, h2]
  simp only [Option.bind_eq_bind, Option.some_bind, List.foldlM_nil, Option.pure_def]
  refine ⟨_, rfl, ?_, ?_⟩
  · rw [Workspace.tensorShape_fillFloats_ne _ (by decide),
      Workspace.tensorShape_fillFloats_self]
    rfl
  · rw [Workspace.tensorShape_fillFloats_self]
    rfl

/-- C5 (evaluation of the code): `rand()` may return `2^30`, which lies between 0 and
`RAND_MAX`; there `10 * r` wraps to `-2^31` and the label is `-1`, outside [0,10). -/
theorem label_negative_at_two_pow_30 :
    (0 : Int) ≤ 1073741824 ∧ (1073741824 : Int) ≤ RAND_MAX ∧
      wrapInt32 (10 * 1073741824) = -2147483648 ∧ labelOf 1073741824 = -1 ∧
      ¬ (0 ≤ labelOf 1073741824 ∧ labelOf 1073741824 < 10) := by
  decide

/-- C7: the fourth operator of the forward graph, right after SoftmaxWithLoss, is a
`ConstantFill` with the single input `loss`, the single output `loss_grad`, the single
argument `value = 1.0` and the gradient flag; it is the only flagged operator among the
hand-written ones; and whatever the gradient loop appends comes after it. -/
theorem lossGradSeed_position (reg : GradientRegistry) (net : NetDef)
    (h : buildPredictModel reg = .ok net) :
    lossGradSeedOp =
      { type := "ConstantFill", input := ["loss"], output := ["loss_grad"],
        arg := [{ name := "value", f := some 1, ints := [] }], is_gradient_op := true } ∧
    forwardGraph.1.op = [fcOp, sigmoidOp, softmaxWithLossOp, lossGradSeedOp] ∧
    (initModel.op ++ forwardGraph.1.op).filter (fun o => o.is_gradient_op) = [lossGradSeedOp] ∧
    net.op[2]? = some softmaxWithLossOp ∧ net.op[3]? = some lossGradSeedOp ∧
    ∃ grads, net.op = [fcOp, sigmoidOp, softmaxWithLossOp, lossGradSeedOp] ++ grads ∧
      grads.length = 3 ∧ ∀ g ∈ grads, g.is_gradient_op = true := by
  have hops : forwardGraph.1.op = [fcOp, sigmoidOp, softmaxWithLossOp, lossGradSeedOp] := by
    decide
  obtain ⟨grads, _, hop, hlen, hall⟩ := gradientLoop_appends reg _ _ _ h
  rw [hops] at hop
  have hlen3 : grads.length = 3 := by
    rw [hlen]
    decide
  refine ⟨by decide, hops, by decide, ?_, ?_, grads, hop, hlen3, hall⟩
  · rw [hop]
    simp
  · rw [hop]
    simp

/-- Witness of C7 on the registry `demoRegistry`. -/
theorem lossGradSeed_position_witness :
    ∃ net, buildPredictModel demoRegistry = .ok net ∧ net.op[3]? = some lossGradSeedOp := by
  have hsome : (buildPredictModel demoRegistry).toOption.isSome = true := by decide
  cases hb : buildPredictModel demoRegistry with
  | error e => simp [hb, Except.toOption] at hsome
  | ok net => exact ⟨net, rfl, (lossGradSeed_position demoRegistry net hb).2.2.2.2.1⟩

/-- C9: for every forward operator `op` and every registry, the gradient placeholders
are one per declared output, the i-th named `output(i)` followed by `_grad` (so
`softmax_grad, loss_grad` for SoftmaxWithLoss, `pred_grad` for Sigmoid, `fc1_grad` for
FC); the registry is asked with `op` and these placeholders, and when it answers with
the operators `g :: rest` the loop body appends exactly one operator, equal to `g` in
every field except that the gradient flag is set; `rest` is dropped. -/
theorem gradient_step_contract (reg : GradientRegistry) (predictModel : NetDef)
    (op : OperatorDef) (m : GradientOpsMeta) (g : OperatorDef) (rest : List OperatorDef)
    (hq : reg op (op.output.map (fun o => { dense_ := o ++ "_grad" })) = .ok m)
    (hm : m.ops_ = g :: rest) :
    gradientPlaceholders op = op.output.map (fun o => { dense_ := o ++ "_grad" }) ∧
    (gradientPlaceholders op).length = op.output_size ∧
    gradientPlaceholders softmaxWithLossOp =
      [{ dense_ := "softmax_grad" }, { dense_ := "loss_grad" }] ∧
    gradientPlaceholders sigmoidOp = [{ dense_ := "pred_grad" }] ∧
    gradientPlaceholders fcOp = [{ dense_ := "fc1_grad" }] ∧
    gradientStep reg predictModel op =
      .ok { name := predictModel.name,
            op := predictModel.op ++ [{ g with is_gradient_op := true }] } := by
  have hp := gradientPlaceholders_eq_map op
  refine ⟨hp, ?_, by decide, by decide, by decide, ?_⟩
  · rw [hp]
    simp [OperatorDef.output_size]
  · rw [← hp] at hq
    exact gradientStep_ok reg predictModel op m g rest hq hm

/-- Witness of C9: the step for SoftmaxWithLoss on a registry that returns two
operators; only the first one is appended. -/
theorem gradient_step_contract_witness :
    gradientStep (fun _ _ => .ok { ops_ := [{ type := "First" }, { type := "Second" }] })
        forwardGraph.1 softmaxWithLossOp =
      .ok { name := "my first net",
            op := [fcOp, sigmoidOp, softmaxWithLossOp, lossGradSeedOp,
              { type := "First", is_gradient_op := true }] } :=
  (gradient_step_contract (fun _ _ => .ok { ops_ := [{ type := "First" }, { type := "Second" }] })
    forwardGraph.1 softmaxWithLossOp { ops_ := [{ type := "First" }, { type := "Second" }] }
    { type := "First" } [{ type := "Second" }] rfl rfl).2.2.2.2.2

/-- C10: with the pre-fed blobs `data` and `label` (both are in the workspace after
the set-up, in every environment) and the outputs of the initialization graph taken as
available, every input of the four hand-written forward operators is available when
the operator is reached; and no two operators among the initialization graph and these
four declare the same output name. -/
theorem name_binding_well_formed {F : Type} (env : Env F) :
    (setup env).workspace.HasBlob "data" = true ∧
    (setup env).workspace.HasBlob "label" = true ∧
    (initModel.op.map (fun o => o.output)).flatten = ["fc_w", "fc_b"] ∧
    forwardGraph.1.op = [fcOp, sigmoidOp, softmaxWithLossOp, lossGradSeedOp] ∧
    wellBound (["data", "label"] ++ (initModel.op.map (fun o => o.output)).flatten)
      forwardGraph.1.op = true ∧
    ((initModel.op ++ forwardGraph.1.op).map (fun o => o.output)).flatten.Nodup := by
  obtain ⟨hws, _, _⟩ := setup_workspace env
  refine ⟨?_, ?_, by decide, by decide, by decide, by decide⟩
  · rw [hws]
    simp [Workspace.HasBlob_feedInts, Workspace.HasBlob_feedFloats]
  · rw [hws]
    simp [Workspace.HasBlob_feedInts, Workspace.HasBlob_feedFloats]

end caffe2
